import Mathlib

/-!
Verification of the PS Vita doomgeneric backend.

The repository holds two near-duplicate backend variants:
- namespace V1 embeds doomgeneric_vita.c (ring buffer with drop-on-full,
  button-only sampler in main, channel-converting blitter, polling DG_GetKey);
- namespace V2 embeds src/doomgeneric_vita.c (ring buffer without an overflow
  check, DG_GetKey that samples buttons, analog sticks and touch before
  polling, pixel-copying blitter, WAD existence check in main).

Machine integers are modelled as Nat with explicit modulus where the C code
wraps; C int values holding 0/1 flags are modelled as Bool; the analog stick
arithmetic on signed int is modelled on Int.
-/

/-- Functional array store: update of a total map at one index. -/
def upd {α : Type} (f : Nat → α) (i : Nat) (v : α) : Nat → α :=
  fun j => if j = i then v else f j

namespace V1

/-- Embeds QUEUE_SIZE from doomgeneric_vita.c. -/
def QUEUE_SIZE : Nat := 64

/-- Ring buffer state of doomgeneric_vita.c: the two parallel arrays
key_queue and pressed_queue are modelled as one map from slot index to
(key, pressed), together with the write cursor queue_head and the read
cursor queue_tail. -/
structure Queue where
  data : Nat → Nat × Bool
  head : Nat
  tail : Nat

/-- Initial state: both cursors start at 0, arrays zero-initialised. -/
def initQueue : Queue := ⟨fun _ => (0, false), 0, 0⟩

/-- Embeds add_key: computes next_head = (queue_head + 1) % QUEUE_SIZE and
stores the event only when next_head differs from queue_tail. -/
def add_key (q : Queue) (e : Nat × Bool) : Queue :=
  if (q.head + 1) % QUEUE_SIZE ≠ q.tail then
    ⟨upd q.data q.head e, (q.head + 1) % QUEUE_SIZE, q.tail⟩
  else q

/-- Embeds DG_GetKey of doomgeneric_vita.c: returns 0 when the queue is
empty, otherwise yields the entry at queue_tail and advances queue_tail. -/
def DG_GetKey (q : Queue) : Option (Nat × Bool) × Queue :=
  if q.tail = q.head then (none, q)
  else (some (q.data q.tail), ⟨q.data, q.head, (q.tail + 1) % QUEUE_SIZE⟩)

/-- Repeated polling with explicit fuel; each step is one DG_GetKey call and
polling stops at the first empty answer. -/
def drainAux : Nat → Queue → List (Nat × Bool)
  | 0, _ => []
  | fuel + 1, q =>
    match DG_GetKey q with
    | (none, _) => []
    | (some e, q2) => e :: drainAux fuel q2

/-- Drains the whole queue: QUEUE_SIZE polls always reach the empty state. -/
def drainAll (q : Queue) : List (Nat × Bool) := drainAux QUEUE_SIZE q

/-- Enqueues a list of events left to right through add_key. -/
def enqList (q : Queue) (evs : List (Nat × Bool)) : Queue :=
  evs.foldl add_key q

/-- Embeds the bmap table of doomgeneric_vita.c, in source order.  Masks are
the SCE_CTRL button bits, codes the doomkeys.h values (modelled from the
doomgeneric doomkeys.h header, which is outside this repository):
UP to KEY_UPARROW, DOWN to KEY_DOWNARROW, LEFT to KEY_LEFTARROW, RIGHT to
KEY_RIGHTARROW, CROSS to KEY_RCTRL, SQUARE to space, CIRCLE to KEY_ESCAPE,
TRIANGLE to KEY_ENTER, LTRIGGER to comma, RTRIGGER to period, START to
KEY_ESCAPE, SELECT to KEY_TAB. -/
def bmap : List (Nat × Nat) :=
  [(0x10, 0xad), (0x40, 0xaf), (0x80, 0xac), (0x20, 0xae),
   (0x4000, 0x9d), (0x8000, 32), (0x2000, 27), (0x1000, 13),
   (0x100, 44), (0x200, 46), (0x8, 27), (0x1, 9)]

/-- Embeds the C test (pad.buttons & mask) ? 1 : 0. -/
def btn (buttons mask : Nat) : Bool := buttons &&& mask != 0

/-- Events contributed by one bmap entry in one loop iteration of main:
add_key(doom_key, new_p) exactly when old_p differs from new_p. -/
def entryEvents (p s : Nat) (e : Nat × Nat) : List (Nat × Bool) :=
  if btn p e.1 != btn s e.1 then [(e.2, btn s e.1)] else []

/-- Events generated by one pass of the main-loop button scan, comparing the
previous button mask p against the current sample s, in bmap order. -/
def blockEvents (p s : Nat) : List (Nat × Bool) :=
  bmap.flatMap (entryEvents p s)

/-- Events generated by the main loop over a whole list of controller
samples, threading old_pad = current sample after each pass. -/
def genEvents : Nat → List Nat → List (Nat × Bool)
  | _, [] => []
  | p, s :: rest => blockEvents p s ++ genEvents s rest

/-- Embeds the vita2d RGBA8 macro (modelled from the vita2d SDK header,
outside this repository): packs a in bits 24-31, b in 16-23, g in 8-15,
r in 0-7. -/
def RGBA8 (r g b a : Nat) : Nat :=
  ((a &&& 255) <<< 24) ||| ((b &&& 255) <<< 16) ||| ((g &&& 255) <<< 8) ||| (r &&& 255)

/-- Embeds the per-pixel body of DG_DrawFrame in doomgeneric_vita.c:
r = (c >> 16) & 0xFF, g = (c >> 8) & 0xFF, b = c & 0xFF, then
RGBA8(r, g, b, 255). -/
def convertPixel (c : Nat) : Nat :=
  RGBA8 ((c >>> 16) &&& 255) ((c >>> 8) &&& 255) (c &&& 255) 255

/-- Embeds the resolution constants of this port (DOOMGENERIC_RESX and
DOOMGENERIC_RESY, modelled from the source comments: the texture is
320 x 200). -/
def DOOMGENERIC_RESX : Nat := 320

/-- Vertical resolution of the engine frame. -/
def DOOMGENERIC_RESY : Nat := 200

/-- Embeds the copy loop of DG_DrawFrame: for every linear index i below
RESX * RESY the destination texel i becomes convertPixel of source pixel i. -/
def DG_DrawFrame (src dst : Nat → Nat) : Nat → Nat :=
  (List.range (DOOMGENERIC_RESX * DOOMGENERIC_RESY)).foldl
    (fun d i => upd d i (convertPixel (src i))) dst

/-- Embeds the hardcoded argument vector cq_argv of main. -/
def cq_argv : List String :=
  ["doom", "-iwad", "ux0:data/ChexQuest/chex.wad", "-file", "ux0:data/ChexQuest/chex2.wad"]

end V1

namespace V2

/-- Embeds MAX_KEY_QUEUE from src/doomgeneric_vita.c. -/
def MAX_KEY_QUEUE : Nat := 32

/-- Ring buffer state of src/doomgeneric_vita.c: key_queue is an array of
key_event_t records (key, pressed) with cursors key_queue_read and
key_queue_write. -/
structure Queue where
  data : Nat → Nat × Bool
  read : Nat
  write : Nat

/-- Initial state: both cursors 0. -/
def initQueue : Queue := ⟨fun _ => (0, false), 0, 0⟩

/-- Embeds add_key_event: stores the event at key_queue_write and advances
the write cursor modulo MAX_KEY_QUEUE, with no fullness check. -/
def add_key_event (q : Queue) (e : Nat × Bool) : Queue :=
  ⟨upd q.data q.write e, q.read, (q.write + 1) % MAX_KEY_QUEUE⟩

/-- Embeds get_key_event: returns 0 when read equals write, otherwise yields
the entry at key_queue_read and advances the read cursor. -/
def get_key_event (q : Queue) : Option (Nat × Bool) × Queue :=
  if q.read = q.write then (none, q)
  else (some (q.data q.read), ⟨q.data, (q.read + 1) % MAX_KEY_QUEUE, q.write⟩)

/-- Repeated polling with explicit fuel, stopping at the first empty answer. -/
def drainAux : Nat → Queue → List (Nat × Bool)
  | 0, _ => []
  | fuel + 1, q =>
    match get_key_event q with
    | (none, _) => []
    | (some e, q2) => e :: drainAux fuel q2

/-- Enqueues a list of events left to right through add_key_event. -/
def enqList (q : Queue) (evs : List (Nat × Bool)) : Queue :=
  evs.foldl add_key_event q

/-- Embeds the button_map table of src/doomgeneric_vita.c up to (and not
including) the {0, 0} sentinel, in source order.  Codes are the doomkeys.h
values: UP to KEY_UPARROW, DOWN to KEY_DOWNARROW, LEFT to KEY_LEFTARROW,
RIGHT to KEY_RIGHTARROW, CROSS to KEY_USE, CIRCLE to KEY_FIRE, SQUARE to
KEY_STRAFE_L, TRIANGLE to KEY_STRAFE_R, LTRIGGER to KEY_RSHIFT, RTRIGGER to
KEY_FIRE, START to KEY_ESCAPE, SELECT to KEY_TAB. -/
def button_map : List (Nat × Nat) :=
  [(0x10, 0xad), (0x40, 0xaf), (0x80, 0xac), (0x20, 0xae),
   (0x4000, 0xa2), (0x2000, 0xa3), (0x8000, 0xa0), (0x1000, 0xa1),
   (0x100, 0xb6), (0x200, 0xa3), (0x8, 27), (0x1, 9)]

/-- Embeds the weapon_keys table, the ASCII digits 1 to 7. -/
def weapon_keys : List Nat := [49, 50, 51, 52, 53, 54, 55]

/-- Controller sample consumed by DG_GetKey of src/doomgeneric_vita.c:
digital button mask, the three analog axes actually read (lx, ly, rx, each
0..255 with centre 128), and the front touch report (count and y of the
first report). -/
structure Sample where
  buttons : Nat
  lx : Nat
  ly : Nat
  rx : Nat
  touchNum : Nat
  touchY : Nat

/-- Mutable sampler state of src/doomgeneric_vita.c: the event queue and the
statics prev_ctrl, prev_lx, prev_ly, prev_rx, prev_touch, current_weapon. -/
structure SamplerState where
  queue : Queue
  prev_ctrl : Nat
  prev_lx : Int
  prev_ly : Int
  prev_rx : Int
  prev_touch : Nat
  current_weapon : Nat

/-- Initial sampler state: statics zero-initialised, prev_ctrl cleared by
memset in DG_Init. -/
def initState : SamplerState := ⟨initQueue, 0, 0, 0, 0, 0, 0⟩

/-- Embeds the deadzone clamp: if (abs(v) < 30) v = 0. -/
def deadzone (v : Int) : Int := if v.natAbs < 30 then 0 else v

/-- Events generated by the button_map scan of DG_GetKey: press when the bit
is set now and was clear before, release when clear now and set before. -/
def buttonEvents (p c : Nat) : List (Nat × Bool) :=
  button_map.flatMap (fun e =>
    if c &&& e.1 ≠ 0 ∧ p &&& e.1 = 0 then [(e.2, true)]
    else if c &&& e.1 = 0 ∧ p &&& e.1 ≠ 0 then [(e.2, false)]
    else [])

/-- Events generated by one axis of DG_GetKey for its pair of virtual
buttons: negKey is the button for values below -50, posKey the button for
values above 50; pv is the stored previous value, v the current (already
deadzone-clamped) value.  Mirrors the two if / else-if chains of the
source. -/
def axisEvents (negKey posKey : Nat) (pv v : Int) : List (Nat × Bool) :=
  (if v < -50 ∧ pv ≥ -50 then [(negKey, true)]
   else if v ≥ -50 ∧ pv < -50 then [(negKey, false)]
   else []) ++
  (if v > 50 ∧ pv ≤ 50 then [(posKey, true)]
   else if v ≤ 50 ∧ pv > 50 then [(posKey, false)]
   else [])

/-- Events generated by the touch-screen weapon switch: on a fresh touch in
the upper screen area, one press and one release of the next weapon key. -/
def touchEvents (st : SamplerState) (c : Sample) : List (Nat × Bool) :=
  if c.touchNum > 0 ∧ st.prev_touch = 0 ∧ c.touchY < 200 then
    [(weapon_keys.getD ((st.current_weapon + 1) % 7) 0, true),
     (weapon_keys.getD ((st.current_weapon + 1) % 7) 0, false)]
  else []

/-- All events enqueued during one DG_GetKey call, in source order: the
button_map scan, then the left stick y axis (up and down arrows), the left
stick x axis (left and right arrows), the right stick x axis (strafe left
and right), then the touch weapon switch. -/
def genSample (st : SamplerState) (c : Sample) : List (Nat × Bool) :=
  buttonEvents st.prev_ctrl c.buttons ++
  axisEvents 0xad 0xaf st.prev_ly (deadzone ((c.ly : Int) - 128)) ++
  axisEvents 0xac 0xae st.prev_lx (deadzone ((c.lx : Int) - 128)) ++
  axisEvents 0xa0 0xa1 st.prev_rx (deadzone ((c.rx : Int) - 128)) ++
  touchEvents st c

/-- State of the sampler statics after one DG_GetKey call: prev_ctrl takes
the raw sample, prev_lx / prev_ly / prev_rx take the deadzone-clamped
centred values, prev_touch the report count, and current_weapon advances on
a fresh upper-area touch; q is the queue after the call. -/
def stepState (st : SamplerState) (c : Sample) (q : Queue) : SamplerState :=
  ⟨q, c.buttons,
   deadzone ((c.lx : Int) - 128),
   deadzone ((c.ly : Int) - 128),
   deadzone ((c.rx : Int) - 128),
   c.touchNum,
   if c.touchNum > 0 ∧ st.prev_touch = 0 ∧ c.touchY < 200 then
     (st.current_weapon + 1) % 7
   else st.current_weapon⟩

/-- Embeds DG_GetKey of src/doomgeneric_vita.c: samples the controller,
enqueues every generated event through add_key_event, updates the statics,
and finally polls the queue once through get_key_event. -/
def DG_GetKey (st : SamplerState) (c : Sample) : Option (Nat × Bool) × SamplerState :=
  let q1 := enqList st.queue (genSample st c)
  ((get_key_event q1).1, stepState st c (get_key_event q1).2)

/-- Events enqueued by successive DG_GetKey calls over a list of controller
samples, threading the statics between calls exactly as DG_GetKey does; the
per-call polls are deferred so that the accumulated stream can be fed to
the queue and drained in order. -/
def genEventsRun : SamplerState → List Sample → List (Nat × Bool)
  | _, [] => []
  | st, c :: rest => genSample st c ++ genEventsRun (stepState st c st.queue) rest

/-- Embeds the per-pixel body of DG_DrawFrame in src/doomgeneric_vita.c:
the source pixel is stored into the texture unchanged. -/
def copyPixel (c : Nat) : Nat := c

/-- Embeds the single WAD path checked by main through sceIoGetstat. -/
def wadPath : String := "ux0:data/chexquest2/chex2.wad"

/-- Embeds the argument vector doom_argv of main. -/
def doom_argv : List String :=
  ["chexquest2", "-iwad", "ux0:data/chexquest2/chex2.wad"]

end V2

/-- Observable outcome of a main entry point: either the engine is started
with an argument vector (error reporting then falls to the engine), or the
process is exited by the component itself. -/
inductive StartResult where
  | engineStart (args : List String)
  | exitProcess
deriving DecidableEq

/-- Embeds main of doomgeneric_vita.c: no filesystem probe at all; the
hardcoded argument vector goes to doomgeneric_Create regardless of which
files exist (the wadExists oracle models sceIoGetstat answers). -/
def mainV1 (wadExists : String → Bool) : StartResult :=
  match wadExists with
  | _ => StartResult.engineStart V1.cq_argv

/-- Embeds main of src/doomgeneric_vita.c: one sceIoGetstat probe of wadPath;
on success doomgeneric_Create runs, otherwise the error screen ends in
sceKernelExitProcess. -/
def mainV2 (wadExists : String → Bool) : StartResult :=
  if wadExists V2.wadPath then StartResult.engineStart V2.doom_argv
  else StartResult.exitProcess

/-- Interleavable queue operations for the bounds invariant: one enqueue or
one poll. -/
inductive QOp where
  | enq (e : Nat × Bool)
  | poll

/-- One step of the V1 queue under a queue operation. -/
def stepV1 (q : V1.Queue) : QOp → V1.Queue
  | QOp.enq e => V1.add_key q e
  | QOp.poll => (V1.DG_GetKey q).2

/-- One step of the V2 queue under a queue operation. -/
def stepV2 (q : V2.Queue) : QOp → V2.Queue
  | QOp.enq e => V2.add_key_event q e
  | QOp.poll => (V2.get_key_event q).2

/-- Runs a list of queue operations on the V1 queue from its initial state. -/
def runV1 (ops : List QOp) : V1.Queue := ops.foldl stepV1 V1.initQueue

/-- Runs a list of queue operations on the V2 queue from its initial state. -/
def runV2 (ops : List QOp) : V2.Queue := ops.foldl stepV2 V2.initQueue

/-- Cursor bounds of the V1 queue: every array access of add_key and
DG_GetKey happens at one of these cursors. -/
def goodV1 (q : V1.Queue) : Prop := q.head < V1.QUEUE_SIZE ∧ q.tail < V1.QUEUE_SIZE

/-- Cursor bounds of the V2 queue. -/
def goodV2 (q : V2.Queue) : Prop := q.read < V2.MAX_KEY_QUEUE ∧ q.write < V2.MAX_KEY_QUEUE

/-- Signed per-key balance of a drained event list: presses count +1,
releases -1, other keys 0. -/
def cnt (k : Nat) : List (Nat × Bool) → Int
  | [] => 0
  | e :: rest => (if e.1 = k then (if e.2 then 1 else -1) else 0) + cnt k rest

/-- Number of bmap entries with key k whose button bit is set in the mask
buttons: the press surplus the V1 sampler owes for key k in that state. -/
def keyWeight (k buttons : Nat) : List (Nat × Nat) → Int
  | [] => 0
  | e :: rest =>
    (if e.2 = k ∧ V1.btn buttons e.1 = true then 1 else 0) + keyWeight k buttons rest

/-- Checks that a list of pressed flags follows the expected alternation
starting with the expectation e. -/
def alternating : Bool → List Bool → Bool
  | _, [] => true
  | e, b :: rest => (b == e) && alternating (!e) rest

/-- Checks that the events for key k inside a drained list alternate
press, release, press, ... starting with a press. -/
def pressReleaseAlternates (k : Nat) (l : List (Nat × Bool)) : Bool :=
  alternating true ((l.filter (fun e => e.1 == k)).map (fun e => e.2))

/-- Declarative view of one mapped control: its doom key code and its
boolean activation state on a sample. -/
structure Control where
  code : Nat
  active : V2.Sample → Bool

/-- Declarative edge event of one control, from the claim wording: exactly
one press on a false-to-true transition, exactly one release on a
true-to-false transition, nothing otherwise. -/
def edgeEvent (pa ca : Bool) (code : Nat) : List (Nat × Bool) :=
  if ca && !pa then [(code, true)]
  else if !ca && pa then [(code, false)]
  else []

/-- Declarative control list of the V2 sampler in its fixed iteration order:
the button table entries, then the six analog virtual buttons (left stick
up, down, left, right, then right stick strafe left, strafe right), with
activation thresholds on the raw centred axis values. -/
def controls : List Control :=
  V2.button_map.map (fun e => ⟨e.2, fun c => c.buttons &&& e.1 != 0⟩) ++
  [⟨0xad, fun c => decide ((c.ly : Int) - 128 < -50)⟩,
   ⟨0xaf, fun c => decide ((c.ly : Int) - 128 > 50)⟩,
   ⟨0xac, fun c => decide ((c.lx : Int) - 128 < -50)⟩,
   ⟨0xae, fun c => decide ((c.lx : Int) - 128 > 50)⟩,
   ⟨0xa0, fun c => decide ((c.rx : Int) - 128 < -50)⟩,
   ⟨0xa1, fun c => decide ((c.rx : Int) - 128 > 50)⟩]

/-- Declarative event block for a pair of samples: every control contributes
its edge event, in the fixed control order. -/
def specSampleEvents (p c : V2.Sample) : List (Nat × Bool) :=
  controls.flatMap (fun ctl => edgeEvent (ctl.active p) (ctl.active c) ctl.code)

/-- Destination pixel formula from the spec wording: extract 8-bit R, G, B
from bit positions 16, 8, 0 of the packed source pixel and write
opaqueAlpha | (B << 16) | (G << 8) | R. -/
def specConvert (c : Nat) : Nat :=
  (255 <<< 24) ||| ((c &&& 255) <<< 16) ||| (((c >>> 8) &&& 255) <<< 8) ||| ((c >>> 16) &&& 255)

/-- Modelled from the spec: the repository delegates all geometric scaling
to the external vita2d_draw_texture_scale call, so the nearest-neighbor
horizontal index map is taken from the spec formula
xMap[dstX] = floor(dstX * srcWidth / dstWidth), one entry per destination
column. -/
def xMap (srcW dstW : Nat) : List Nat :=
  (List.range dstW).map (fun dx => dx * srcW / dstW)

/-- Modelled from the spec: the source row read for destination row dy is
floor(dy * srcHeight / dstHeight). -/
def srcRow (srcH dstH dy : Nat) : Nat := dy * srcH / dstH

/-- Modelled from the spec: the source pixel read for destination pixel
(dx, dy) under nearest-neighbor scaling, with the source in row-major
layout. -/
def scaledRead (src : Nat → Nat) (srcW srcH dstW dstH dx dy : Nat) : Nat :=
  src (srcRow srcH dstH dy * srcW + (xMap srcW dstW).getD dx 0)

/-! Helper lemmas. -/

lemma goodV1_step (q : V1.Queue) (op : QOp) (h : goodV1 q) : goodV1 (stepV1 q op) := by
  obtain ⟨h1, h2⟩ := h
  simp only [V1.QUEUE_SIZE] at h1 h2
  cases op with
  | enq e =>
    simp only [stepV1, V1.add_key, V1.QUEUE_SIZE]
    split_ifs <;> simp only [goodV1, V1.QUEUE_SIZE] <;>
      exact ⟨by omega, by omega⟩
  | poll =>
    simp only [stepV1, V1.DG_GetKey, V1.QUEUE_SIZE]
    split_ifs <;> simp only [goodV1, V1.QUEUE_SIZE] <;>
      exact ⟨by omega, by omega⟩

lemma goodV2_step (q : V2.Queue) (op : QOp) (h : goodV2 q) : goodV2 (stepV2 q op) := by
  obtain ⟨h1, h2⟩ := h
  simp only [V2.MAX_KEY_QUEUE] at h1 h2
  cases op with
  | enq e =>
    simp only [stepV2, V2.add_key_event, V2.MAX_KEY_QUEUE, goodV2]
    exact ⟨by omega, by omega⟩
  | poll =>
    simp only [stepV2, V2.get_key_event, V2.MAX_KEY_QUEUE]
    split_ifs <;> simp only [goodV2, V2.MAX_KEY_QUEUE] <;>
      exact ⟨by omega, by omega⟩

lemma goodV1_foldl : ∀ (ops : List QOp) (q : V1.Queue), goodV1 q → goodV1 (ops.foldl stepV1 q) := by
  intro ops
  induction ops with
  | nil => intro q h; exact h
  | cons op rest ih => intro q h; exact ih _ (goodV1_step q op h)

lemma goodV2_foldl : ∀ (ops : List QOp) (q : V2.Queue), goodV2 q → goodV2 (ops.foldl stepV2 q) := by
  intro ops
  induction ops with
  | nil => intro q h; exact h
  | cons op rest ih => intro q h; exact ih _ (goodV2_step q op h)

lemma foldl_upd_apply (f : Nat → Nat) :
    ∀ (n : Nat) (d : Nat → Nat) (i : Nat), i < n →
      ((List.range n).foldl (fun g j => upd g j (f j)) d) i = f i := by
  intro n
  induction n with
  | zero => intro d i h; omega
  | succ n ih =>
    intro d i h
    rw [List.range_succ, List.foldl_append]
    simp only [List.foldl_cons, List.foldl_nil, upd]
    rcases Nat.lt_succ_iff_lt_or_eq.mp h with h2 | h2
    · rw [if_neg (by omega)]
      exact ih d i h2
    · subst h2
      rw [if_pos rfl]

lemma cnt_append (k : Nat) : ∀ l1 l2 : List (Nat × Bool), cnt k (l1 ++ l2) = cnt k l1 + cnt k l2 := by
  intro l1 l2
  induction l1 with
  | nil => simp [cnt]
  | cons e rest ih => simp only [List.cons_append, cnt, List.append_eq, ih]; ring

lemma keyWeight_nonneg (k b : Nat) : ∀ l : List (Nat × Nat), 0 ≤ keyWeight k b l := by
  intro l
  induction l with
  | nil => simp [keyWeight]
  | cons e rest ih => simp only [keyWeight]; split_ifs <;> omega

lemma keyWeight_append (k b : Nat) :
    ∀ l1 l2 : List (Nat × Nat), keyWeight k b (l1 ++ l2) = keyWeight k b l1 + keyWeight k b l2 := by
  intro l1 l2
  induction l1 with
  | nil => simp [keyWeight]
  | cons e rest ih => simp only [List.cons_append, keyWeight, List.append_eq, ih]; ring

lemma keyWeight_zero (k : Nat) : ∀ l : List (Nat × Nat), keyWeight k 0 l = 0 := by
  intro l
  induction l with
  | nil => rfl
  | cons e rest ih => simp [keyWeight, V1.btn, ih]

lemma cnt_entryEvents (k p s : Nat) (e : Nat × Nat) :
    cnt k (V1.entryEvents p s e) =
      (if e.2 = k ∧ V1.btn s e.1 = true then 1 else 0) -
      (if e.2 = k ∧ V1.btn p e.1 = true then 1 else 0) := by
  cases hp : V1.btn p e.1 <;> cases hs : V1.btn s e.1 <;> by_cases hk : e.2 = k <;>
    simp [V1.entryEvents, cnt, hp, hs, hk]

lemma cnt_flatMap_entry (k p s : Nat) : ∀ l : List (Nat × Nat),
    cnt k (l.flatMap (V1.entryEvents p s)) = keyWeight k s l - keyWeight k p l := by
  intro l
  induction l with
  | nil => simp [cnt, keyWeight]
  | cons e rest ih =>
    simp only [List.flatMap_cons, cnt_append, keyWeight, ih, cnt_entryEvents]
    ring

lemma entryEvents_len (p s : Nat) (e : Nat × Nat) : (V1.entryEvents p s e).length ≤ 1 := by
  simp only [V1.entryEvents]
  split_ifs <;> simp

lemma flatMap_take_of_append {α β : Type} (f : α → List β) (hf : ∀ x, (f x).length ≤ 1) :
    ∀ (l : List α) (p r : List β), l.flatMap f = p ++ r → ∃ j, p = (l.take j).flatMap f := by
  intro l
  induction l with
  | nil =>
    intro p r h
    simp only [List.flatMap_nil] at h
    exact ⟨0, by simp [(List.append_eq_nil.mp h.symm).1]⟩
  | cons x xs ih =>
    intro p r h
    simp only [List.flatMap_cons] at h
    cases p with
    | nil => exact ⟨0, by simp⟩
    | cons a p2 =>
      cases hfx : f x with
      | nil =>
        rw [hfx, List.nil_append] at h
        obtain ⟨j, hj⟩ := ih (a :: p2) r h
        exact ⟨j + 1, by simp [List.take, hfx, hj]⟩
      | cons b bs =>
        have hbs : bs = [] := by
          have hl := hf x
          rw [hfx] at hl
          simpa using hl
        subst hbs
        rw [hfx] at h
        simp only [List.singleton_append, List.cons_append, List.cons.injEq] at h
        obtain ⟨hba, h2⟩ := h
        obtain ⟨j, hj⟩ := ih p2 r h2
        exact ⟨j + 1, by simp [List.take, hfx, hba, hj]⟩

lemma genEvents_cnt_bound (k : Nat) : ∀ (samples : List Nat) (p : Nat) (pre suf : List (Nat × Bool)),
    V1.genEvents p samples = pre ++ suf → -keyWeight k p V1.bmap ≤ cnt k pre := by
  intro samples
  induction samples with
  | nil =>
    intro p pre suf h
    simp only [V1.genEvents] at h
    obtain ⟨h1, _⟩ := List.append_eq_nil.mp h.symm
    subst h1
    simpa [cnt] using keyWeight_nonneg k p V1.bmap
  | cons s rest ih =>
    intro p pre suf h
    simp only [V1.genEvents] at h
    rcases List.append_eq_append_iff.mp h with ⟨mid, hpre, hsuf⟩ | ⟨mid, hblock, hsuf⟩
    · subst hpre
      have hmid := ih s mid suf hsuf
      have hblk : cnt k (V1.blockEvents p s) = keyWeight k s V1.bmap - keyWeight k p V1.bmap :=
        cnt_flatMap_entry k p s V1.bmap
      rw [cnt_append, hblk]
      omega
    · obtain ⟨j, hj⟩ := flatMap_take_of_append _ (entryEvents_len p s) V1.bmap pre mid hblock
      subst hj
      have h1 : cnt k ((V1.bmap.take j).flatMap (V1.entryEvents p s)) =
          keyWeight k s (V1.bmap.take j) - keyWeight k p (V1.bmap.take j) :=
        cnt_flatMap_entry k p s _
      have h2 : keyWeight k p V1.bmap =
          keyWeight k p (V1.bmap.take j) + keyWeight k p (V1.bmap.drop j) := by
        conv_lhs => rw [← List.take_append_drop j V1.bmap]
        exact keyWeight_append k p _ _
      have h3 := keyWeight_nonneg k s (V1.bmap.take j)
      have h4 := keyWeight_nonneg k p (V1.bmap.drop j)
      omega

lemma enqList_shape : ∀ evs : List (Nat × Bool),
    (V1.enqList V1.initQueue evs).tail = 0 ∧
    (V1.enqList V1.initQueue evs).head = min evs.length 63 ∧
    ∀ i, i < min evs.length 63 → (V1.enqList V1.initQueue evs).data i = evs.getD i (0, false) := by
  intro evs
  induction evs using List.reverseRecOn with
  | nil => exact ⟨rfl, rfl, by intro i hi; simp at hi⟩
  | append_singleton l e ih =>
    obtain ⟨ht, hh, hd⟩ := ih
    have hfold : V1.enqList V1.initQueue (l ++ [e]) = V1.add_key (V1.enqList V1.initQueue l) e := by
      simp [V1.enqList, List.foldl_append]
    by_cases hlen : l.length < 63
    · have hmin : min l.length 63 = l.length := by omega
      rw [hmin] at hh hd
      have hcond : ((V1.enqList V1.initQueue l).head + 1) % V1.QUEUE_SIZE ≠
          (V1.enqList V1.initQueue l).tail := by
        rw [hh, ht, V1.QUEUE_SIZE, Nat.mod_eq_of_lt (by omega)]
        omega
      rw [hfold, V1.add_key, if_pos hcond]
      refine ⟨ht, ?_, ?_⟩
      · show ((V1.enqList V1.initQueue l).head + 1) % V1.QUEUE_SIZE = min (l ++ [e]).length 63
        rw [hh, V1.QUEUE_SIZE, Nat.mod_eq_of_lt (by omega)]
        simp
        omega
      · intro i hi
        show upd (V1.enqList V1.initQueue l).data (V1.enqList V1.initQueue l).head e i = _
        simp only [List.length_append, List.length_cons, List.length_nil] at hi
        rw [hh, upd]
        by_cases hie : i = l.length
        · subst hie
          rw [if_pos rfl, List.getD_append_right l [e] (0, false) l.length (le_refl _)]
          simp
        · rw [if_neg hie]
          have hil : i < l.length := by omega
          rw [hd i (by omega), List.getD_append l [e] (0, false) i hil]
    · have hmin : min l.length 63 = 63 := by omega
      rw [hmin] at hh hd
      have hcond : ¬(((V1.enqList V1.initQueue l).head + 1) % V1.QUEUE_SIZE ≠
          (V1.enqList V1.initQueue l).tail) := by
        rw [hh, ht, V1.QUEUE_SIZE]
        simp
      rw [hfold, V1.add_key, if_neg hcond]
      have hmin2 : min (l ++ [e]).length 63 = 63 := by
        simp only [List.length_append, List.length_cons, List.length_nil]
        omega
      rw [hmin2]
      refine ⟨ht, hh, ?_⟩
      intro i hi
      rw [hd i hi, List.getD_append l [e] (0, false) i (by omega)]

lemma drain_shape : ∀ (fuel : Nat) (q : V1.Queue), q.tail ≤ q.head → q.head < 64 →
    q.head - q.tail ≤ fuel →
    V1.drainAux fuel q = (List.range (q.head - q.tail)).map (fun i => q.data (q.tail + i)) := by
  intro fuel
  induction fuel with
  | zero =>
    intro q h1 h2 h3
    have : q.head - q.tail = 0 := by omega
    rw [this]
    rfl
  | succ fuel ih =>
    intro q h1 h2 h3
    by_cases he : q.tail = q.head
    · rw [show q.head - q.tail = 0 by omega]
      simp [V1.drainAux, V1.DG_GetKey, he]
    · have htlt : q.tail < q.head := lt_of_le_of_ne h1 he
      have hmod : (q.tail + 1) % V1.QUEUE_SIZE = q.tail + 1 := by
        rw [V1.QUEUE_SIZE]
        exact Nat.mod_eq_of_lt (by omega)
      have hstep : V1.drainAux (fuel + 1) q =
          q.data q.tail :: V1.drainAux fuel ⟨q.data, q.head, (q.tail + 1) % V1.QUEUE_SIZE⟩ := by
        simp [V1.drainAux, V1.DG_GetKey, he]
      rw [hstep, hmod]
      rw [ih ⟨q.data, q.head, q.tail + 1⟩ (by dsimp; omega) (by dsimp; omega) (by dsimp; omega)]
      dsimp only
      rw [show q.head - q.tail = (q.head - (q.tail + 1)) + 1 by omega, List.range_succ_eq_map]
      simp only [List.map_cons, List.map_map, Nat.add_zero]
      congr 1
      apply List.map_congr_left
      intro i hi
      simp only [Function.comp]
      congr 1
      omega

lemma range_map_getD : ∀ (evs : List (Nat × Bool)) (m : Nat), m ≤ evs.length →
    (List.range m).map (fun i => evs.getD i (0, false)) = evs.take m := by
  intro evs
  induction evs with
  | nil =>
    intro m hm
    simp at hm
    subst hm
    simp
  | cons e rest ih =>
    intro m hm
    cases m with
    | zero => simp
    | succ m2 =>
      rw [List.range_succ_eq_map]
      simp only [List.map_cons, List.map_map, Function.comp_def, List.getD_cons_zero,
        List.getD_cons_succ, List.take_succ_cons]
      rw [ih m2 (by simpa using hm)]

lemma drainAll_enqList (evs : List (Nat × Bool)) :
    V1.drainAll (V1.enqList V1.initQueue evs) = evs.take (min evs.length 63) := by
  obtain ⟨ht, hh, hd⟩ := enqList_shape evs
  have hds := drain_shape V1.QUEUE_SIZE (V1.enqList V1.initQueue evs)
    (by rw [ht]; omega) (by rw [hh]; omega) (by rw [hh, ht, V1.QUEUE_SIZE]; omega)
  rw [V1.drainAll, hds, ht, hh, Nat.sub_zero]
  rw [List.map_congr_left (fun i hi => by
    rw [Nat.zero_add, hd i (List.mem_range.mp hi)])]
  exact range_map_getD evs _ (by omega)

/-- Claim C2 (amended): in the V1 pipeline (drop-on-full queue of
doomgeneric_vita.c), for every sequence of controller samples fed from the
initial all-released state, every prefix of the sequence obtained by
draining the queue in order has a non-negative press-minus-release balance
for every key code.  In the V2 pipeline (unchecked ring of
src/doomgeneric_vita.c) this fails: queue overflow overwrites queued press
events while their later releases survive, exhibited by a sampler run of
40 events (12 presses, 12 releases, 8 presses, 8 releases) whose drained
stream is the 8 bare releases, with balance -1 for key 0xad on the first
prefix.  The per-key-code alternation part of the original claim is
refuted separately: two physical buttons may map to the same key code. -/
theorem c2_drain_nonneg :
    (∀ (samples : List Nat) (k : Nat) (pre suf : List (Nat × Bool)),
      V1.drainAll (V1.enqList V1.initQueue (V1.genEvents 0 samples)) = pre ++ suf →
      0 ≤ cnt k pre) ∧
    (V2.drainAux 32 (V2.enqList V2.initQueue (V2.genEventsRun V2.initState
        [⟨0xF3F9, 128, 128, 128, 0, 0⟩, ⟨0, 128, 128, 128, 0, 0⟩,
         ⟨0xF0F0, 128, 128, 128, 0, 0⟩, ⟨0, 128, 128, 128, 0, 0⟩])) =
      [(0xad, false), (0xaf, false), (0xac, false), (0xae, false),
       (0xa2, false), (0xa3, false), (0xa0, false), (0xa1, false)] ∧
     cnt 0xad [(0xad, false)] = -1) := by
  refine ⟨?_, by decide⟩
  intro samples k pre suf h
  rw [drainAll_enqList] at h
  have hsplit : V1.genEvents 0 samples =
      pre ++ (suf ++ (V1.genEvents 0 samples).drop (min (V1.genEvents 0 samples).length 63)) := by
    conv_lhs => rw [← List.take_append_drop (min (V1.genEvents 0 samples).length 63)
      (V1.genEvents 0 samples)]
    rw [h, List.append_assoc]
  have hb := genEvents_cnt_bound k samples 0 pre _ hsplit
  rw [keyWeight_zero] at hb
  omega

/-- Witness for c2_drain_nonneg at a concrete one-sample run of the V1
pipeline. -/
theorem c2_drain_nonneg_witness : 0 ≤ cnt 27 [(27, true)] :=
  c2_drain_nonneg.1 [8192] 27 [(27, true)] [] (by decide)

/-- Claim C2 counterexample.  V1: pressing CIRCLE in one sample and START
in the next (both map to KEY_ESCAPE = 27) drains as two consecutive presses
of key 27, so the drained events for a single key code do not alternate
press/release.  V2: a 40-event sampler run overflows the 32-slot unchecked
ring, the drained stream starts with a release of key 0xad whose press was
overwritten, and the running balance for that key is already negative on
the first prefix. -/
theorem c2_alternation_fails :
    (V1.drainAll (V1.enqList V1.initQueue (V1.genEvents 0 [8192, 8200])) =
      [(27, true), (27, true)] ∧
     pressReleaseAlternates 27 [(27, true), (27, true)] = false) ∧
    ((V2.drainAux 32 (V2.enqList V2.initQueue (V2.genEventsRun V2.initState
        [⟨0xF3F9, 128, 128, 128, 0, 0⟩, ⟨0, 128, 128, 128, 0, 0⟩,
         ⟨0xF0F0, 128, 128, 128, 0, 0⟩, ⟨0, 128, 128, 128, 0, 0⟩]))).take 1 =
      [(0xad, false)] ∧
     cnt 0xad [(0xad, false)] < 0) := by
  decide

lemma deadzone_lt (v : Int) : V2.deadzone v < -50 ↔ v < -50 := by
  rw [V2.deadzone]
  split_ifs with h <;> omega

lemma deadzone_gt (v : Int) : V2.deadzone v > 50 ↔ v > 50 := by
  rw [V2.deadzone]
  split_ifs with h <;> omega

lemma axisEvents_edge (cn cp : Nat) (pv v : Int) :
    V2.axisEvents cn cp pv (V2.deadzone v) =
      edgeEvent (decide (pv < -50)) (decide (v < -50)) cn ++
      edgeEvent (decide (pv > 50)) (decide (v > 50)) cp := by
  have h1 := deadzone_lt v
  have h2 := deadzone_gt v
  simp only [V2.axisEvents, edgeEvent, Bool.and_eq_true, Bool.not_eq_true',
    decide_eq_true_eq, decide_eq_false_iff_not]
  split_ifs <;> first | rfl | omega

lemma decide_deadzone_lt (x : Int) : decide (V2.deadzone x < -50) = decide (x < -50) :=
  decide_eq_decide.mpr (deadzone_lt x)

lemma decide_deadzone_gt (x : Int) : decide (V2.deadzone x > 50) = decide (x > 50) :=
  decide_eq_decide.mpr (deadzone_gt x)

lemma entry_edge (p c m k : Nat) :
    (if c &&& m ≠ 0 ∧ p &&& m = 0 then [(k, true)]
     else if c &&& m = 0 ∧ p &&& m ≠ 0 then [(k, false)]
     else ([] : List (Nat × Bool))) =
      edgeEvent (p &&& m != 0) (c &&& m != 0) k := by
  by_cases hp : p &&& m = 0 <;> by_cases hc : c &&& m = 0 <;>
    simp [edgeEvent, hp, hc]

lemma buttonEvents_edge (pS cS : V2.Sample) :
    V2.buttonEvents pS.buttons cS.buttons =
      (V2.button_map.map (fun e =>
        (⟨e.2, fun c => c.buttons &&& e.1 != 0⟩ : Control))).flatMap
        (fun ctl => edgeEvent (ctl.active pS) (ctl.active cS) ctl.code) := by
  rw [V2.buttonEvents]
  induction V2.button_map with
  | nil => rfl
  | cons e rest ih =>
    simp only [List.flatMap_cons, List.map_cons, ih]
    rw [entry_edge]

lemma v1_entry_edge (p s : Nat) (e : Nat × Nat) :
    V1.entryEvents p s e = edgeEvent (V1.btn p e.1) (V1.btn s e.1) e.2 := by
  cases hp : V1.btn p e.1 <;> cases hs : V1.btn s e.1 <;>
    simp [V1.entryEvents, edgeEvent, hp, hs]

lemma v1_block_edge (p s : Nat) :
    V1.blockEvents p s =
      V1.bmap.flatMap (fun e => edgeEvent (V1.btn p e.1) (V1.btn s e.1) e.2) := by
  rw [V1.blockEvents]
  congr 1
  funext e
  exact v1_entry_edge p s e

/-- Claim C3: both samplers are edge-triggered.  V1: one pass of the
main-loop button scan over previous mask pb and current sample sb emits, in
bmap order, exactly one press per false-to-true transition and one release
per true-to-false transition and nothing for an unchanged button, and the
next pass compares against sb (old_pad := pad).  V2: for coherent sampler
state (the statics record the previous sample p), the events generated by
one DG_GetKey call are exactly the concatenation, in the fixed control
order (button table first, then the analog virtual buttons), of one edge
event per transitioning control, followed only by the touch-screen weapon
events, which are empty whenever there is no fresh upper-area touch; and
afterwards the statics record the current sample c (for the analog axes,
threshold activation recomputed from the stored clamped value agrees with
the raw current sample). -/
theorem c3_edge_triggered (pb sb : Nat) (samples : List Nat)
    (p c : V2.Sample) (st : V2.SamplerState) (q : V2.Queue)
    (h1 : st.prev_ctrl = p.buttons)
    (h2 : st.prev_ly = V2.deadzone ((p.ly : Int) - 128))
    (h3 : st.prev_lx = V2.deadzone ((p.lx : Int) - 128))
    (h4 : st.prev_rx = V2.deadzone ((p.rx : Int) - 128)) :
    V1.blockEvents pb sb =
      V1.bmap.flatMap (fun e => edgeEvent (V1.btn pb e.1) (V1.btn sb e.1) e.2) ∧
    V1.genEvents pb (sb :: samples) = V1.blockEvents pb sb ++ V1.genEvents sb samples ∧
    V2.genSample st c = specSampleEvents p c ++ V2.touchEvents st c ∧
    (¬(c.touchNum > 0 ∧ st.prev_touch = 0 ∧ c.touchY < 200) → V2.touchEvents st c = []) ∧
    (V2.stepState st c q).prev_ctrl = c.buttons ∧
    ((V2.stepState st c q).prev_ly < -50 ↔ (c.ly : Int) - 128 < -50) ∧
    ((V2.stepState st c q).prev_ly > 50 ↔ (c.ly : Int) - 128 > 50) ∧
    ((V2.stepState st c q).prev_lx < -50 ↔ (c.lx : Int) - 128 < -50) ∧
    ((V2.stepState st c q).prev_lx > 50 ↔ (c.lx : Int) - 128 > 50) ∧
    ((V2.stepState st c q).prev_rx < -50 ↔ (c.rx : Int) - 128 < -50) ∧
    ((V2.stepState st c q).prev_rx > 50 ↔ (c.rx : Int) - 128 > 50) := by
  refine ⟨v1_block_edge pb sb, rfl, ?_, fun h => by simp [V2.touchEvents, h], rfl,
    deadzone_lt _, deadzone_gt _, deadzone_lt _, deadzone_gt _,
    deadzone_lt _, deadzone_gt _⟩
  rw [V2.genSample, specSampleEvents, controls, List.flatMap_append, h1, h2, h3, h4,
    buttonEvents_edge p c, axisEvents_edge, axisEvents_edge, axisEvents_edge]
  simp only [List.flatMap_cons, List.flatMap_nil, List.append_nil, List.append_assoc,
    decide_deadzone_lt, decide_deadzone_gt]

/-- Witness for c3_edge_triggered: the all-released, centred sample fed to
the initial sampler state. -/
theorem c3_edge_triggered_witness :
    V2.genSample V2.initState ⟨0, 128, 128, 128, 0, 0⟩ =
      specSampleEvents ⟨0, 128, 128, 128, 0, 0⟩ ⟨0, 128, 128, 128, 0, 0⟩ ++
      V2.touchEvents V2.initState ⟨0, 128, 128, 128, 0, 0⟩ :=
  (c3_edge_triggered 0 0 [] ⟨0, 128, 128, 128, 0, 0⟩ ⟨0, 128, 128, 128, 0, 0⟩
    V2.initState V2.initQueue rfl (by decide) (by decide) (by decide)).2.2.1

/-- Claim C1 (amended): enqueueing into a full V1 queue through add_key
leaves the stored events and both cursors unchanged; the V2 add_key_event
has no fullness check, so it always stores the event at the write cursor
and advances the write cursor, even when the queue is full. -/
theorem c1_full_enqueue :
    (∀ (q : V1.Queue) (e : Nat × Bool),
      (q.head + 1) % V1.QUEUE_SIZE = q.tail → V1.add_key q e = q) ∧
    (∀ (q : V2.Queue) (e : Nat × Bool),
      V2.add_key_event q e = ⟨upd q.data q.write e, q.read, (q.write + 1) % V2.MAX_KEY_QUEUE⟩) :=
  ⟨fun q e h => by simp [V1.add_key, h], fun _ _ => rfl⟩

/-- Witness for c1_full_enqueue: a concrete full V1 queue (head 63, tail 0)
is left unchanged by an enqueue. -/
theorem c1_full_enqueue_witness :
    V1.add_key ⟨fun _ => (0, false), 63, 0⟩ (5, true) = ⟨fun _ => (0, false), 63, 0⟩ :=
  c1_full_enqueue.1 ⟨fun _ => (0, false), 63, 0⟩ (5, true) (by decide)

/-- Claim C1 counterexample: the full V2 queue with read 0 and write 31
(advancing write by one would equal read) does not keep its write cursor on
enqueue: add_key_event moves it to 0. -/
theorem c1_add_key_event_overwrites :
    ((31 : Nat) + 1) % V2.MAX_KEY_QUEUE = 0 ∧
    (V2.add_key_event ⟨fun _ => (0, false), 0, 31⟩ (5, true)).write = 0 ∧
    (0 : Nat) ≠ 31 := by
  refine ⟨by decide, rfl, by decide⟩

/-- Claim C4: enqueueing A-press, B-press, A-release into either empty
queue and then polling four times yields exactly those three events in
order followed by no event (the fourth poll finds the queue empty). -/
theorem c4_fifo_round_trip (a b : Nat) :
    V1.drainAux 4 (V1.enqList V1.initQueue [(a, true), (b, true), (a, false)]) =
      [(a, true), (b, true), (a, false)] ∧
    V2.drainAux 4 (V2.enqList V2.initQueue [(a, true), (b, true), (a, false)]) =
      [(a, true), (b, true), (a, false)] :=
  ⟨rfl, rfl⟩

/-- Claim C5 (amended): an axis value inside the deadzone band never
activates a virtual button, so it produces no event when neither virtual
button of the axis was previously active (any event produced on entering
the deadzone is the release of a previously active button); and every
threshold crossing produces exactly one event per virtual button, a press
on entering and a release on exiting, never both, the two activation
conditions of an axis being mutually exclusive. -/
theorem c5_deadzone_threshold (cn cp : Nat) (pv v : Int) :
    (v.natAbs < 30 → ¬pv < -50 → ¬pv > 50 → V2.axisEvents cn cp pv (V2.deadzone v) = []) ∧
    V2.axisEvents cn cp pv (V2.deadzone v) =
      edgeEvent (decide (pv < -50)) (decide (v < -50)) cn ++
      edgeEvent (decide (pv > 50)) (decide (v > 50)) cp ∧
    ¬(v < -50 ∧ v > 50) := by
  refine ⟨?_, axisEvents_edge cn cp pv v, by omega⟩
  intro hv h1 h2
  rw [axisEvents_edge cn cp pv v]
  have hc1 : decide (v < -50) = false := by simp; omega
  have hc2 : decide (v > 50) = false := by simp; omega
  have hp1 : decide (pv < -50) = false := by simp; omega
  have hp2 : decide (pv > 50) = false := by simp; omega
  rw [hc1, hc2, hp1, hp2]
  rfl

/-- Witness for c5_deadzone_threshold: the centred stick with inactive
previous state produces no events. -/
theorem c5_deadzone_threshold_witness :
    V2.axisEvents 173 175 0 (V2.deadzone 0) = [] :=
  (c5_deadzone_threshold 173 175 0 0).1 (by decide) (by decide) (by decide)

/-- Claim C5 counterexample: the centre value 128 lies inside the deadzone
band, yet with the up virtual button previously active (stored value -100)
it produces a release event, not no event. -/
theorem c5_deadzone_release_event :
    ((128 : Int) - 128).natAbs < 30 ∧
    V2.axisEvents 173 175 (-100) (V2.deadzone ((128 : Int) - 128)) = [(173, false)] := by
  refine ⟨by decide, by decide⟩

/-- Claim C6 (amended): the V1 blitter converts every pixel by the spec
formula opaqueAlpha | (B << 16) | (G << 8) | R with R, G, B taken from bit
positions 16, 8, 0, and at equal resolutions every destination pixel is the
converted source pixel; the V2 blitter instead stores the source pixel
unchanged. -/
theorem c6_pixel_conversion :
    (∀ px : Nat, V1.convertPixel px = specConvert px) ∧
    (∀ (src dst : Nat → Nat) (i : Nat), i < V1.DOOMGENERIC_RESX * V1.DOOMGENERIC_RESY →
      V1.DG_DrawFrame src dst i = specConvert (src i)) ∧
    (∀ px : Nat, V2.copyPixel px = px) := by
  have hconv : ∀ px : Nat, V1.convertPixel px = specConvert px := by
    intro px
    simp [V1.convertPixel, V1.RGBA8, specConvert, Nat.and_assoc]
  refine ⟨hconv, ?_, fun _ => rfl⟩
  intro src dst i hi
  rw [V1.DG_DrawFrame, foldl_upd_apply (fun j => V1.convertPixel (src j)) _ dst i hi, hconv]

/-- Witness for c6_pixel_conversion: destination texel 0 of a constant
frame. -/
theorem c6_pixel_conversion_witness :
    V1.DG_DrawFrame (fun _ => 0x123456) (fun _ => 0) 0 = specConvert 0x123456 :=
  c6_pixel_conversion.2.1 (fun _ => 0x123456) (fun _ => 0) 0 (by decide)

/-- Claim C6 counterexample: on the pure red source pixel 0x00FF0000 the V2
blitter writes the pixel unchanged, which differs from the spec conversion
formula (alpha not forced opaque, channels not reordered). -/
theorem c6_v2_copies_unchanged :
    V2.copyPixel 0xFF0000 = 0xFF0000 ∧
    specConvert 0xFF0000 = 0xFF0000FF ∧
    V2.copyPixel 0xFF0000 ≠ specConvert 0xFF0000 := by
  refine ⟨rfl, by decide, by decide⟩

/-- Claim C7: the spec-modelled horizontal index map has exactly dstWidth
entries, entry dx equals floor(dx * srcWidth / dstWidth) and lies below
srcWidth; for a 2 x 2 source scaled to 4 x 4 the map is [0, 0, 1, 1] and
destination pixel (3, 3) reads source pixel (1, 1) (row-major index 3). -/
theorem c7_xmap_spec :
    (∀ srcW dstW : Nat, (xMap srcW dstW).length = dstW) ∧
    (∀ srcW dstW dx : Nat, 0 < srcW → dx < dstW →
      (xMap srcW dstW).getD dx 0 = dx * srcW / dstW ∧ dx * srcW / dstW < srcW) ∧
    xMap 2 4 = [0, 0, 1, 1] ∧
    (∀ src : Nat → Nat, scaledRead src 2 2 4 4 3 3 = src (1 * 2 + 1)) := by
  refine ⟨fun srcW dstW => by simp [xMap], ?_, by decide, fun src => rfl⟩
  intro srcW dstW dx hs hd
  constructor
  · rw [xMap, List.getD_eq_getElem?_getD, List.getElem?_map, List.getElem?_range hd]
    rfl
  · rw [Nat.div_lt_iff_lt_mul (by omega : 0 < dstW), Nat.mul_comm srcW dstW]
    exact Nat.mul_lt_mul_of_lt_of_le hd (le_refl srcW) hs

/-- Witness for c7_xmap_spec: entry 3 of the 2-to-4 map. -/
theorem c7_xmap_spec_witness :
    (xMap 2 4).getD 3 0 = 3 * 2 / 4 ∧ 3 * 2 / 4 < 2 :=
  c7_xmap_spec.2.1 2 4 3 (by decide) (by decide)

/-- Claim C8 (amended): the V1 DG_GetKey is a thin wrapper over the queue
poll: on an empty queue it reports no event and changes nothing, otherwise
it returns the entry at the read cursor (the oldest queued event: the head
of the drained sequence) and advances only the read cursor; the V2
DG_GetKey instead samples the controller and enqueues before polling
(refuted separately). -/
theorem c8_thin_wrapper (q : V1.Queue) :
    (q.tail = q.head → V1.DG_GetKey q = (none, q)) ∧
    (q.tail ≠ q.head →
      V1.DG_GetKey q = (some (q.data q.tail), ⟨q.data, q.head, (q.tail + 1) % V1.QUEUE_SIZE⟩)) ∧
    (V1.DG_GetKey q).1 = (V1.drainAll q).head? := by
  refine ⟨fun h => by simp [V1.DG_GetKey, h], fun h => by simp [V1.DG_GetKey, h], ?_⟩
  have hstep : V1.drainAux (63 + 1) q =
      match V1.DG_GetKey q with
      | (none, _) => []
      | (some e, q3) => e :: V1.drainAux 63 q3 := rfl
  rw [V1.drainAll, show V1.QUEUE_SIZE = 63 + 1 from rfl, hstep]
  by_cases h : q.tail = q.head <;> simp [V1.DG_GetKey, h]

/-- Witness for c8_thin_wrapper: polling the empty initial queue. -/
theorem c8_thin_wrapper_witness :
    V1.DG_GetKey V1.initQueue = (none, V1.initQueue) :=
  (c8_thin_wrapper V1.initQueue).1 rfl

/-- Claim C8 counterexample: with an empty queue and a fresh UP press in the
current sample, the V2 DG_GetKey returns an event instead of reporting no
event, and its write cursor moves: it samples the controller and enqueues
inside the poll call. -/
theorem c8_v2_getkey_samples :
    (V2.DG_GetKey V2.initState ⟨0x10, 128, 128, 128, 0, 0⟩).1 = some (0xad, true) ∧
    (V2.DG_GetKey V2.initState ⟨0x10, 128, 128, 128, 0, 0⟩).2.queue.write = 1 := by
  refine ⟨by decide, by decide⟩

/-- Claim C9 (amended): the V1 entry point probes no path at all and starts
the engine on its hardcoded argument vector regardless of which files
exist, leaving missing-file reporting to the engine; the V2 entry point
consults exactly one candidate path and, when that file is missing, itself
exits the process instead of falling back to the engine. -/
theorem c9_entry_point :
    (∀ f g : String → Bool, mainV1 f = mainV1 g ∧ mainV1 f = StartResult.engineStart V1.cq_argv) ∧
    (∀ f g : String → Bool, f V2.wadPath = g V2.wadPath → mainV2 f = mainV2 g) ∧
    (∀ f : String → Bool, f V2.wadPath = false → mainV2 f = StartResult.exitProcess) ∧
    (∀ f : String → Bool, f V2.wadPath = true → mainV2 f = StartResult.engineStart V2.doom_argv) := by
  refine ⟨fun f g => ⟨rfl, rfl⟩, fun f g h => by simp [mainV2, h], ?_, ?_⟩
  · intro f h
    simp [mainV2, h]
  · intro f h
    simp [mainV2, h]

/-- Witness for c9_entry_point: two oracles agreeing on the single probed
path give the same outcome. -/
theorem c9_entry_point_witness :
    mainV2 (fun _ => true) = mainV2 (fun s => s == V2.wadPath) :=
  c9_entry_point.2.1 (fun _ => true) (fun s => s == V2.wadPath) (by simp)

/-- Claim C9 counterexample: when the probed WAD file is missing, the V2
entry point itself exits the process rather than delegating the error to
the engine. -/
theorem c9_v2_aborts : mainV2 (fun _ => false) = StartResult.exitProcess := rfl

/-- Claim C10: from the initial state, any interleaving of enqueue and poll
operations keeps both cursors of both queue implementations below the
respective capacity, so every array access (which happens at a cursor) is
in bounds. -/
theorem c10_cursor_bounds (ops : List QOp) : goodV1 (runV1 ops) ∧ goodV2 (runV2 ops) :=
  ⟨goodV1_foldl ops V1.initQueue ⟨by decide, by decide⟩,
   goodV2_foldl ops V2.initQueue ⟨by decide, by decide⟩⟩
